import Mathlib

/-!
Verification of the binocle byte-to-pixel mapping engine.

The definitions below are a shallow embedding of `src/src/main.rs`:
the color-scheme functions `grayscale`, `colorful`, `category`, the
gradient dispatch of `color_gradient`, and the per-pixel body of
`Binocle::draw`.  Bytes are modelled as `Nat` values below 256; `u8`
overflow (`overflowing_mul`) is modelled by an explicit `% 256`; `usize`
values are modelled as `Nat`.  The gradient color lookup goes through the
external `colorgrad` crate (f64 arithmetic), so the embedding takes the
four gradient lookup functions as an explicit parameter of type
`GradientKind → Nat → List Nat`; the theorems quantify over it.
-/

namespace Binocle

/-- Rust: `const WIDTH: u32 = 1024;` — the canvas pixel width used by
`Binocle::draw` via `i % WIDTH` and `i / WIDTH`. -/
def WIDTH : Nat := 1024

/-- The four named gradients dispatched in `Binocle::draw`
(`colorgrad::magma()`, `plasma()`, `viridis()`, `rainbow()`). -/
inductive GradientKind where
  | magma
  | plasma
  | viridis
  | rainbow
deriving DecidableEq, Repr

/-- Rust enum `PixelStyle` (from the settings module), with exactly the
variants matched in `Binocle::draw`. -/
inductive PixelStyle where
  | Category
  | Colorful
  | Grayscale
  | GradientMagma
  | GradientPlasma
  | GradientViridis
  | GradientRainbow
deriving DecidableEq, Repr

/-- Rust struct `BinocleSettings` with the fields constructed in `main`
and read in `Binocle::draw`.  All numeric fields are `usize` in Rust,
modelled as `Nat`. -/
structure BinocleSettings where
  zoom : Nat
  width : Nat
  offset : Nat
  offset_fine : Nat
  stride : Nat
  pixel_style : PixelStyle
  buffer_length : Nat
  canvas_width : Nat
deriving DecidableEq, Repr

/-- Rust: `fn grayscale(b: u8) -> [u8; 4] { [b, b, b, 255] }`. -/
def grayscale (b : Nat) : List Nat := [b, b, b, 255]

/-- Rust: `fn colorful(b: u8) -> [u8; 4]` returning
`[b, b.overflowing_mul(2).0, b.overflowing_mul(4).0, 255]`; the
wrapping multiplications are `% 256`. -/
def colorful (b : Nat) : List Nat := [b, b * 2 % 256, b * 4 % 256, 255]

/-- Rust `u8::is_ascii_graphic`: `b'!'..=b'~'`, i.e. 0x21 ≤ b ≤ 0x7E. -/
def isAsciiGraphic (b : Nat) : Bool := 0x21 ≤ b && b ≤ 0x7E

/-- Rust `u8::is_ascii_whitespace`: space, horizontal tab, line feed,
form feed, carriage return. -/
def isAsciiWhitespace (b : Nat) : Bool :=
  b = 0x20 || b = 0x09 || b = 0x0A || b = 0x0C || b = 0x0D

/-- Rust `u8::is_ascii`: b ≤ 0x7F. -/
def isAscii (b : Nat) : Bool := b ≤ 0x7F

/-- Rust: `fn category(b: u8) -> [u8; 4]` — the if/else-if chain of
`main.rs` lines 30–42, in source order. -/
def category (b : Nat) : List Nat :=
  if b = 0x00 then [0, 0, 0, 255]
  else if isAsciiGraphic b then [60, 255, 96, 255]
  else if isAsciiWhitespace b then [240, 240, 240, 255]
  else if isAscii b then [60, 178, 255, 255]
  else [249, 53, 94, 255]

/-- The style dispatch of `Binocle::draw` lines 90–98: the three pure
schemes are the functions above; the four gradient styles call the
external `colorgrad` lookup, supplied here as the parameter `grad`. -/
def styleFun (grad : GradientKind → Nat → List Nat) :
    PixelStyle → Nat → List Nat
  | PixelStyle.Category => category
  | PixelStyle.Colorful => colorful
  | PixelStyle.Grayscale => grayscale
  | PixelStyle.GradientMagma => grad GradientKind.magma
  | PixelStyle.GradientPlasma => grad GradientKind.plasma
  | PixelStyle.GradientViridis => grad GradientKind.viridis
  | PixelStyle.GradientRainbow => grad GradientKind.rainbow

/-- Rust: `settings.offset + settings.offset_fine + (y * settings.width + x) * settings.stride`
(`Binocle::draw` lines 107–109). -/
def bufferIndex (s : BinocleSettings) (x y : Nat) : Nat :=
  s.offset + s.offset_fine + (y * s.width + x) * s.stride

/-- The per-pixel body of `Binocle::draw` (lines 101–116): logical
coordinates by integer division, the `x > settings.width` guard, the
`index >= self.buffer.len()` guard, and the scheme lookup. -/
def pixelColor (grad : GradientKind → Nat → List Nat)
    (buffer : List Nat) (s : BinocleSettings) (i : Nat) : List Nat :=
  let x := (i % WIDTH) / s.zoom
  let y := (i / WIDTH) / s.zoom
  if s.width < x then [0, 0, 0, 0]
  else
    let index := bufferIndex s x y
    if buffer.length ≤ index then [0, 0, 0, 0]
    else styleFun grad s.pixel_style (buffer.getD index 0)

/-- Rust: `Binocle::draw` writes `pixelColor` into each 4-byte chunk of
the frame, in pixel-index order (`frame.chunks_exact_mut(4).enumerate()`);
`numPixels` is the number of 4-byte chunks of the frame. -/
def draw (grad : GradientKind → Nat → List Nat)
    (buffer : List Nat) (s : BinocleSettings) (numPixels : Nat) :
    List (List Nat) :=
  (List.range numPixels).map (pixelColor grad buffer s)

/-- A concrete gradient-lookup instance (used only to instantiate
universally quantified theorems at concrete inputs). -/
def gradConst : GradientKind → Nat → List Nat := fun _ _ => [0, 0, 0, 255]

/-- Unfolding of `pixelColor` into its two guards and the scheme call. -/
lemma pixelColor_def (grad : GradientKind → Nat → List Nat)
    (buf : List Nat) (s : BinocleSettings) (i : Nat) :
    pixelColor grad buf s i =
      if s.width < (i % WIDTH) / s.zoom then [0, 0, 0, 0]
      else if buf.length ≤ bufferIndex s ((i % WIDTH) / s.zoom) ((i / WIDTH) / s.zoom) then
        [0, 0, 0, 0]
      else
        styleFun grad s.pixel_style
          (buf.getD (bufferIndex s ((i % WIDTH) / s.zoom) ((i / WIDTH) / s.zoom)) 0) := rfl

/-- C1. Totality of the per-pixel mapping: under the ViewSettings
invariants, every pixel receives either the transparent sentinel
`(0,0,0,0)` or the active scheme's color of a byte fetched at an index
proved in-bounds by the `buffer_index ≥ buffer.length` guard; `draw`
fills exactly one color per pixel of the frame. -/
theorem draw_total (grad : GradientKind → Nat → List Nat)
    (buf : List Nat) (s : BinocleSettings) (i n : Nat)
    (_hz : 1 ≤ s.zoom) (_hw : 1 ≤ s.width) (_hst : 1 ≤ s.stride) :
    (pixelColor grad buf s i = [0, 0, 0, 0] ∨
      ∃ idx, idx < buf.length ∧
        pixelColor grad buf s i = styleFun grad s.pixel_style (buf.getD idx 0)) ∧
    (draw grad buf s n).length = n := by
  constructor
  · rw [pixelColor_def]
    split_ifs with h1 h2
    · exact Or.inl rfl
    · exact Or.inl rfl
    · exact Or.inr ⟨_, by omega, rfl⟩
  · simp [draw]

/-- Witness for C1 at a concrete input. -/
theorem draw_total_witness :
    (pixelColor gradConst [7] ⟨1, 1, 0, 0, 1, PixelStyle.Grayscale, 1, 1024⟩ 0 = [0, 0, 0, 0] ∨
      ∃ idx, idx < ([7] : List Nat).length ∧
        pixelColor gradConst [7] ⟨1, 1, 0, 0, 1, PixelStyle.Grayscale, 1, 1024⟩ 0 =
          styleFun gradConst PixelStyle.Grayscale (([7] : List Nat).getD idx 0)) ∧
    (draw gradConst [7] ⟨1, 1, 0, 0, 1, PixelStyle.Grayscale, 1, 1024⟩ 3).length = 3 :=
  draw_total gradConst [7] ⟨1, 1, 0, 0, 1, PixelStyle.Grayscale, 1, 1024⟩ 0 3
    (by decide) (by decide) (by decide)

/-- C2. Out-of-row rule and its boundary: with logical column
`x = (i mod WIDTH) / zoom` and row `y = (i / WIDTH) / zoom`, the pixel is
the out-of-row sentinel exactly when `x > row_width` (strict `>`):
if `x > width` the color is `(0,0,0,0)` by the out-of-row branch, and if
`x ≤ width` the pixel is rendered by the in-row branch; concretely, with
`row_width = 4`, `zoom = 1` and buffer `[10,20,30,40,50]`, pixel index 4
(logical column 4) is rendered from the buffer as `grayscale 50`, not
treated as out-of-row. -/
theorem draw_out_of_row (grad : GradientKind → Nat → List Nat)
    (buf : List Nat) (s : BinocleSettings) (i : Nat) :
    ((s.width < (i % WIDTH) / s.zoom → pixelColor grad buf s i = [0, 0, 0, 0]) ∧
     ((i % WIDTH) / s.zoom ≤ s.width →
       pixelColor grad buf s i =
         if buf.length ≤ bufferIndex s ((i % WIDTH) / s.zoom) ((i / WIDTH) / s.zoom) then
           [0, 0, 0, 0]
         else
           styleFun grad s.pixel_style
             (buf.getD (bufferIndex s ((i % WIDTH) / s.zoom) ((i / WIDTH) / s.zoom)) 0))) ∧
    pixelColor gradConst [10, 20, 30, 40, 50] ⟨1, 4, 0, 0, 1, PixelStyle.Grayscale, 5, 1024⟩ 4 =
      [50, 50, 50, 255] := by
  refine ⟨⟨fun h1 => ?_, fun h1 => ?_⟩, by decide⟩
  · rw [pixelColor_def, if_pos h1]
  · rw [pixelColor_def, if_neg (by omega)]

/-- Witness for C2 at a concrete input. -/
theorem draw_out_of_row_witness :
    pixelColor gradConst [7] ⟨1, 4, 0, 0, 1, PixelStyle.Grayscale, 1, 1024⟩ 5 = [0, 0, 0, 0] :=
  (draw_out_of_row gradConst [7] ⟨1, 4, 0, 0, 1, PixelStyle.Grayscale, 1, 1024⟩ 5).1.1
    (by decide)

/-- C3. Buffer index arithmetic: `bufferIndex` is literally
`offset + offset_fine + (y*row_width + x)*stride`, every in-row in-bounds
pixel is colored from the byte at that index, and with
`offset = offset_fine = 0`, `stride = 2`, `row_width = 3`, `zoom = 1` and
buffer `[0,1,2,3,4,5]`, the pixels of logical columns 0, 1, 2 of row 0
show the bytes at buffer indices 0, 2, 4. -/
theorem draw_buffer_index (grad : GradientKind → Nat → List Nat)
    (buf : List Nat) (s : BinocleSettings) (i x y : Nat)
    (hx : x = (i % WIDTH) / s.zoom) (hy : y = (i / WIDTH) / s.zoom)
    (hrow : x ≤ s.width) (hlen : bufferIndex s x y < buf.length) :
    bufferIndex s x y = s.offset + s.offset_fine + (y * s.width + x) * s.stride ∧
    pixelColor grad buf s i =
      styleFun grad s.pixel_style
        (buf.getD (s.offset + s.offset_fine + (y * s.width + x) * s.stride) 0) ∧
    pixelColor gradConst [0, 1, 2, 3, 4, 5] ⟨1, 3, 0, 0, 2, PixelStyle.Grayscale, 6, 1024⟩ 0 =
      [0, 0, 0, 255] ∧
    pixelColor gradConst [0, 1, 2, 3, 4, 5] ⟨1, 3, 0, 0, 2, PixelStyle.Grayscale, 6, 1024⟩ 1 =
      [2, 2, 2, 255] ∧
    pixelColor gradConst [0, 1, 2, 3, 4, 5] ⟨1, 3, 0, 0, 2, PixelStyle.Grayscale, 6, 1024⟩ 2 =
      [4, 4, 4, 255] := by
  subst hx hy
  refine ⟨rfl, ?_, by decide, by decide, by decide⟩
  rw [pixelColor_def, if_neg (by omega), if_neg (by omega)]
  rfl

/-- Witness for C3 at a concrete input. -/
theorem draw_buffer_index_witness :
    bufferIndex ⟨1, 3, 0, 0, 2, PixelStyle.Grayscale, 6, 1024⟩ 1 0 = 0 + 0 + (0 * 3 + 1) * 2 ∧
    pixelColor gradConst [0, 1, 2, 3, 4, 5] ⟨1, 3, 0, 0, 2, PixelStyle.Grayscale, 6, 1024⟩ 1 =
      styleFun gradConst PixelStyle.Grayscale
        (([0, 1, 2, 3, 4, 5] : List Nat).getD (0 + 0 + (0 * 3 + 1) * 2) 0) ∧
    pixelColor gradConst [0, 1, 2, 3, 4, 5] ⟨1, 3, 0, 0, 2, PixelStyle.Grayscale, 6, 1024⟩ 0 =
      [0, 0, 0, 255] ∧
    pixelColor gradConst [0, 1, 2, 3, 4, 5] ⟨1, 3, 0, 0, 2, PixelStyle.Grayscale, 6, 1024⟩ 1 =
      [2, 2, 2, 255] ∧
    pixelColor gradConst [0, 1, 2, 3, 4, 5] ⟨1, 3, 0, 0, 2, PixelStyle.Grayscale, 6, 1024⟩ 2 =
      [4, 4, 4, 255] :=
  draw_buffer_index gradConst [0, 1, 2, 3, 4, 5] ⟨1, 3, 0, 0, 2, PixelStyle.Grayscale, 6, 1024⟩
    1 1 0 (by decide) (by decide) (by decide) (by decide)

/-- C4. Past-end-of-buffer policy: an in-row pixel whose buffer index is
at or past the buffer length is the transparent sentinel `(0,0,0,0)`,
otherwise it is the scheme color of the fetched byte; concretely, with a
4-byte buffer and `zoom = 1`, `row_width = 4`, `offset = 10`,
`offset_fine = 0`, `stride = 1`, every pixel of every frame is
`(0,0,0,0)`. -/
theorem draw_past_end (grad : GradientKind → Nat → List Nat)
    (buf : List Nat) (s : BinocleSettings) (i : Nat)
    (hrow : (i % WIDTH) / s.zoom ≤ s.width) :
    ((buf.length ≤ bufferIndex s ((i % WIDTH) / s.zoom) ((i / WIDTH) / s.zoom) →
       pixelColor grad buf s i = [0, 0, 0, 0]) ∧
     (bufferIndex s ((i % WIDTH) / s.zoom) ((i / WIDTH) / s.zoom) < buf.length →
       pixelColor grad buf s i =
         styleFun grad s.pixel_style
           (buf.getD (bufferIndex s ((i % WIDTH) / s.zoom) ((i / WIDTH) / s.zoom)) 0))) ∧
    (∀ j, pixelColor gradConst [1, 2, 3, 4] ⟨1, 4, 10, 0, 1, PixelStyle.Category, 4, 1024⟩ j =
      [0, 0, 0, 0]) ∧
    (∀ n, ∀ c ∈ draw gradConst [1, 2, 3, 4] ⟨1, 4, 10, 0, 1, PixelStyle.Category, 4, 1024⟩ n,
      c = [0, 0, 0, 0]) := by
  have hall : ∀ j, pixelColor gradConst [1, 2, 3, 4]
      ⟨1, 4, 10, 0, 1, PixelStyle.Category, 4, 1024⟩ j = [0, 0, 0, 0] := by
    intro j
    rw [pixelColor_def]
    split_ifs with h1 h2
    · rfl
    · rfl
    · exfalso
      simp only [bufferIndex, List.length_cons, List.length_nil] at h2
      omega
  refine ⟨⟨fun h1 => ?_, fun h1 => ?_⟩, hall, ?_⟩
  · rw [pixelColor_def, if_neg (by omega), if_pos h1]
  · rw [pixelColor_def, if_neg (by omega), if_neg (by omega)]
  · intro n c hc
    simp only [draw, List.mem_map] at hc
    obtain ⟨j, _, rfl⟩ := hc
    exact hall j

/-- Witness for C4 at a concrete input. -/
theorem draw_past_end_witness :
    pixelColor gradConst [1, 2, 3, 4] ⟨1, 4, 10, 0, 1, PixelStyle.Category, 4, 1024⟩ 0 =
      [0, 0, 0, 0] :=
  ((draw_past_end gradConst [1, 2, 3, 4] ⟨1, 4, 10, 0, 1, PixelStyle.Category, 4, 1024⟩ 0
    (by decide)).1).1 (by decide)

set_option maxRecDepth 10000 in
/-- C5. Category scheme classification: for every byte, the color is
decided by the first matching class in the priority order zero / graphic
ASCII / ASCII whitespace / other 7-bit ASCII / bytes ≥ 0x80, with the
five sample values of the spec. -/
theorem category_priority :
    (∀ b : Nat, b < 256 →
      ((category b = [0, 0, 0, 255] ↔ b = 0x00) ∧
       (category b = [60, 255, 96, 255] ↔ (b ≠ 0x00 ∧ isAsciiGraphic b = true)) ∧
       (category b = [240, 240, 240, 255] ↔
         (b ≠ 0x00 ∧ isAsciiGraphic b = false ∧ isAsciiWhitespace b = true)) ∧
       (category b = [60, 178, 255, 255] ↔
         (b ≠ 0x00 ∧ isAsciiGraphic b = false ∧ isAsciiWhitespace b = false ∧
          isAscii b = true)) ∧
       (category b = [249, 53, 94, 255] ↔ 0x80 ≤ b))) ∧
    (category 0x00 = [0, 0, 0, 255] ∧ category 0x41 = [60, 255, 96, 255] ∧
     category 0x20 = [240, 240, 240, 255] ∧ category 0x7F = [60, 178, 255, 255] ∧
     category 0xFF = [249, 53, 94, 255]) := by
  constructor
  · decide
  · decide

/-- Witness for C5 at a concrete input. -/
theorem category_priority_witness : category 0x41 = [60, 255, 96, 255] :=
  (category_priority.1 0x41 (by decide)).2.1.mpr ⟨by decide, by decide⟩

set_option maxRecDepth 10000 in
/-- C6. Colorful scheme with modular wraparound: for every byte,
`colorful b = [b, b*2 % 256, b*4 % 256, 255]` with wrapping
multiplication on the green and blue channels, so `colorful 128` has
green channel 0 and `colorful 64` has blue channel 0. -/
theorem colorful_wraparound : ∀ b : Nat, b < 256 →
    (colorful b = [b, b * 2 % 256, b * 4 % 256, 255] ∧
     (colorful b).getD 0 0 = b ∧
     (colorful b).getD 1 0 = b * 2 % 256 ∧
     (colorful b).getD 2 0 = b * 4 % 256 ∧
     (colorful b).getD 3 0 = 255) ∧
    ((colorful 128).getD 1 0 = 0 ∧ (colorful 64).getD 2 0 = 0 ∧
     colorful 128 = [128, 0, 0, 255] ∧ colorful 64 = [64, 128, 0, 255]) := by decide

/-- Witness for C6 at a concrete input. -/
theorem colorful_wraparound_witness : colorful 128 = [128, 0, 0, 255] :=
  (colorful_wraparound 128 (by decide)).2.2.2.1

/-- C8. Determinism of the frame mapping: two invocations of `draw` with
identical buffer, settings, and frame size produce identical output
frames; the result is a function of its inputs with no hidden state. -/
theorem draw_deterministic (grad : GradientKind → Nat → List Nat)
    (buf1 buf2 : List Nat) (s1 s2 : BinocleSettings) (n1 n2 : Nat)
    (hb : buf1 = buf2) (hs : s1 = s2) (hn : n1 = n2) :
    draw grad buf1 s1 n1 = draw grad buf2 s2 n2 := by
  subst hb hs hn
  rfl

/-- Witness for C8 at a concrete input. -/
theorem draw_deterministic_witness :
    draw gradConst [1, 2, 3] ⟨1, 2, 0, 0, 1, PixelStyle.Colorful, 3, 1024⟩ 4 =
      draw gradConst [1, 2, 3] ⟨1, 2, 0, 0, 1, PixelStyle.Colorful, 3, 1024⟩ 4 :=
  draw_deterministic gradConst [1, 2, 3] [1, 2, 3]
    ⟨1, 2, 0, 0, 1, PixelStyle.Colorful, 3, 1024⟩
    ⟨1, 2, 0, 0, 1, PixelStyle.Colorful, 3, 1024⟩ 4 4 rfl rfl rfl

/-- C9. Noninterference of the informational fields: the output of `draw`
does not depend on the `buffer_length` and `canvas_width` fields of the
settings — two runs whose settings agree on every other field produce
identical frames. -/
theorem draw_noninterference (grad : GradientKind → Nat → List Nat)
    (buf : List Nat) (n : Nat) (s1 s2 : BinocleSettings)
    (hz : s1.zoom = s2.zoom) (hw : s1.width = s2.width)
    (ho : s1.offset = s2.offset) (hf : s1.offset_fine = s2.offset_fine)
    (hst : s1.stride = s2.stride) (hp : s1.pixel_style = s2.pixel_style) :
    draw grad buf s1 n = draw grad buf s2 n := by
  obtain ⟨z1, w1, o1, f1, t1, p1, l1, c1⟩ := s1
  obtain ⟨z2, w2, o2, f2, t2, p2, l2, c2⟩ := s2
  simp only at hz hw ho hf hst hp
  subst hz hw ho hf hst hp
  rfl

/-- Witness for C9 at a concrete input: the two settings differ in both
`buffer_length` and `canvas_width`. -/
theorem draw_noninterference_witness :
    draw gradConst [1, 2, 3] ⟨1, 2, 0, 0, 1, PixelStyle.Category, 3, 1024⟩ 4 =
      draw gradConst [1, 2, 3] ⟨1, 2, 0, 0, 1, PixelStyle.Category, 999, 7⟩ 4 :=
  draw_noninterference gradConst [1, 2, 3] 4
    ⟨1, 2, 0, 0, 1, PixelStyle.Category, 3, 1024⟩
    ⟨1, 2, 0, 0, 1, PixelStyle.Category, 999, 7⟩ rfl rfl rfl rfl rfl rfl

/-- C10. The extra boundary column duplicates the next row's first
column: `bufferIndex` at column `row_width` of row `y` equals
`bufferIndex` at column 0 of row `y+1`, so two pixels with those logical
coordinates get the same color. -/
theorem boundary_column_duplicates (s : BinocleSettings) (y : Nat) :
    bufferIndex s s.width y = bufferIndex s 0 (y + 1) ∧
    ∀ (grad : GradientKind → Nat → List Nat) (buf : List Nat) (i1 i2 : Nat),
      1 ≤ s.zoom → 1 ≤ s.width → 1 ≤ s.stride →
      (i1 % WIDTH) / s.zoom = s.width → (i1 / WIDTH) / s.zoom = y →
      (i2 % WIDTH) / s.zoom = 0 → (i2 / WIDTH) / s.zoom = y + 1 →
      pixelColor grad buf s i1 = pixelColor grad buf s i2 := by
  have hidx : bufferIndex s s.width y = bufferIndex s 0 (y + 1) := by
    simp only [bufferIndex]
    ring_nf
  refine ⟨hidx, ?_⟩
  intro grad buf i1 i2 hz hw hst hx1 hy1 hx2 hy2
  rw [pixelColor_def, pixelColor_def, hx1, hy1, hx2, hy2, hidx,
    if_neg (lt_irrefl s.width), if_neg (Nat.not_lt_zero s.width)]

/-- Witness for C10 at a concrete input: pixel 4 (column 4 of row 0) and
pixel 1024 (column 0 of row 1) with `row_width = 4` and `zoom = 1` show
the same color. -/
theorem boundary_column_duplicates_witness :
    pixelColor gradConst [10, 20, 30, 40, 50]
        ⟨1, 4, 0, 0, 1, PixelStyle.Grayscale, 5, 1024⟩ 4 =
      pixelColor gradConst [10, 20, 30, 40, 50]
        ⟨1, 4, 0, 0, 1, PixelStyle.Grayscale, 5, 1024⟩ 1024 :=
  (boundary_column_duplicates ⟨1, 4, 0, 0, 1, PixelStyle.Grayscale, 5, 1024⟩ 0).2
    gradConst [10, 20, 30, 40, 50] 4 1024
    (by decide) (by decide) (by decide) (by decide) (by decide) (by decide) (by decide)

end Binocle
